import Mathlib

/-!
A verification development for the AutoCog repository.

The Python sources under src/autocog are embedded shallowly: Python strings are
modelled as `String` or as lists of characters (`PyStr`), subprocess and
text-generation collaborators are passed in as explicit function arguments, and
fallible code returns `Option` or `Except`.  Every definition is translated from
the named source location; theorems settle the specification claims against
these definitions.
-/

namespace AutoCog

set_option maxRecDepth 8000

/-- Python strings, modelled as lists of characters for line and marker reasoning. -/
abbrev PyStr := List Char

/-- The whitespace set recognised by Python `str.strip()`. -/
def pyIsSpace (c : Char) : Bool :=
  c = ' ' || c = '\t' || c = '\n' || c = '\r' || c = '\x0b' || c = '\x0c'

/-- Python `s.strip()`: drop leading and trailing whitespace characters. -/
def pyStrip (s : PyStr) : PyStr :=
  ((s.dropWhile pyIsSpace).reverse.dropWhile pyIsSpace).reverse

/-- Python substring containment `sub in s`. -/
def pyContains (s sub : String) : Bool :=
  decide (sub.data <:+: s.data)

/-! ## CommandRunner: run_cog_predict (src/autocog/autocog.py lines 336-357; the same
logic appears in src/autocog/tools/cog.py, predict) -/
/-- Marker of an uncaught Python exception in the captured output. -/
def EXCEPTION_MARKER : String := "Traceback (most recent call last)"

/-- Sentinel line content denoting unrecoverable setup failure; triggers the kill. -/
def SETUP_FAILED : String := "Model setup failed"

/-- The stderr-accumulation loop of run_cog_predict: each line is appended to the
accumulated output; when a line contains the setup-failure sentinel the process is
killed and the loop breaks after appending that line. -/
def collect_stderr : List String → String
  | [] => ""
  | line :: rest =>
    if pyContains line SETUP_FAILED then line
    else line ++ collect_stderr rest

/-- run_cog_predict: the subprocess is abstracted as its exit code (after the wait)
and the sequence of stderr lines it produces.  The returned pair is
(succeeded, captured stderr), using the source's final decision:
`proc.returncode == 0 and "Traceback (most recent call last)" not in stderr`. -/
def run_cog_predict (returncode : Int) (lines : List String) : Bool × String :=
  let stderr := collect_stderr lines
  if returncode == 0 && !(pyContains stderr EXCEPTION_MARKER) then (true, stderr)
  else (false, stderr)

/-! ## Fault labels and the repair dispatch (src/autocog/autocog.py lines 83-85 and
658-672) -/
/-- Label for a fault in the cog predict command. -/
def ERROR_COG_PREDICT : String := "cog_predict"

/-- Label for a fault in the predictor source. -/
def ERROR_PREDICT_PY : String := "predict.py"

/-- Label for a fault in the build descriptor. -/
def ERROR_COG_YAML : String := "cog.yaml"

/-- The artifacts and command the outer loop threads through its iterations. -/
structure LoopState where
  predict_py : String
  cog_yaml : String
  predict_command : String
deriving DecidableEq

/-- One repair dispatch of the outer loop (src/autocog/autocog.py lines 659-672).
The generation-backed helpers fix_predict_py, fix_cog_yaml and
generate_predict_command, and the input-stub helper create_files_for_predict_command,
are external collaborators; they are passed in as functions of exactly the arguments
the source passes to them (fixP gets the current predict.py text and the error,
fixY gets the current cog.yaml text, the current predict.py text and the error,
genCmd gets the current predict.py text, mkFiles rewrites the generated command). -/
def repair_step (fixP : String → String → String) (fixY : String → String → String → String)
    (genCmd : String → String) (mkFiles : String → String)
    (error_source error : String) (st : LoopState) : LoopState :=
  if error_source = ERROR_PREDICT_PY then
    { st with predict_py := fixP st.predict_py error }
  else if error_source = ERROR_COG_YAML then
    { st with cog_yaml := fixY st.cog_yaml st.predict_py error }
  else if error_source = ERROR_COG_PREDICT then
    { st with predict_command := mkFiles (genCmd st.predict_py) }
  else st

/-! ## The retry decorator (src/autocog/retry.py lines 5-22) -/
/-- The loop body of wrapper_retry.  The wrapped function is abstracted as a map
from the 1-based invocation index to a result (`.ok` for a normal return, `.error`
for a raised exception).  `fuel` is the number of remaining iterations of
`for attempt in range(1, attempts + 1)`, so the source's `attempt < attempts` test
is `fuel ≠ 0` after the current iteration is peeled off.  The second component
counts how many times the wrapped function was invoked. -/
def retry_run (f : Nat → Except E A) : Nat → Nat → Option (Except E A) × Nat
  | _, 0 => (none, 0)
  | attempt, fuel + 1 =>
    match f attempt with
    | .ok a => (some (.ok a), 1)
    | .error e =>
      if fuel = 0 then (some (.error e), 1)
      else
        let r := retry_run f (attempt + 1) fuel
        (r.1, r.2 + 1)

/-- wrapper_retry: iterate the body for attempt = 1, …, attempts; if the loop body
never runs (attempts = 0) the wrapper falls through and returns Python's None,
modelled as `none`. -/
def wrapper_retry (f : Nat → Except E A) (attempts : Nat) : Option (Except E A) × Nat :=
  retry_run f 1 attempts

/-! ## Error excerpt extraction (src/autocog/autocog.py lines 412-418) -/
/-- parse_cog_predict_error: keep the portion after "Running prediction...\n" when the
marker occurs (Python `split(...)[1]` is the slice between the first and second
occurrence), cut at "panic: ", and keep the last `maxLength` characters. -/
def parse_cog_predict_error (stderr : String) (maxLength : Nat := 20000) : String :=
  let error :=
    if pyContains stderr "Running prediction...\n" then
      (((stderr.splitOn "Running prediction...\n").getD 1 "").splitOn "panic: ").getD 0 ""
    else
      ((stderr.splitOn "panic: ").getD 0 "")
  error.drop (error.length - maxLength)

/-! ## ErrorClassifier: diagnose_error (src/autocog/autocog.py lines 421-442) -/
/-- The recognized classifier labels, in the order the source lists them. -/
def RECOGNIZED : List String := [ERROR_PREDICT_PY, ERROR_COG_PREDICT, ERROR_COG_YAML]

/-- diagnose_error: the generation service is abstracted as `classify`, mapping the
retry attempt index to the returned label.  An unrecognized label retries with
attempt + 1 until the bound; exhaustion raises ValueError("Failed to diagnose
error"), modelled as `.error ()`.  The source tests `attempt == 5`; for
attempt > 5 it would recurse without bound, which is unreachable from the entry
call at attempt = 0, so the embedding uses `5 ≤ attempt` (the two agree on all
reachable inputs).  The MaxTokensExceeded path only truncates the error text fed
back to the service, which the `classify` abstraction already covers. -/
def diagnose_error (classify : Nat → String) (attempt : Nat) : Except Unit String :=
  let text := classify attempt
  if text ∉ RECOGNIZED then
    if _h5 : 5 ≤ attempt then .error ()
    else diagnose_error classify (attempt + 1)
  else .ok text
termination_by 6 - attempt
decreasing_by omega

/-! ## RepairLoop: the outer attempt loop (src/autocog/autocog.py lines 644-672) -/
/-- How the process terminates: `exit0` for a plain return (exit status 0), `exit1`
for sys.exit(1) after exhausting attempts, `fatal` for an exception propagating out
of the loop (ValueError from diagnose_error), which makes the Python process exit
with a non-zero status. -/
inductive LoopOutcome
  | exit0
  | exit1
  | fatal
deriving DecidableEq

/-- The body of `for attempt in range(attempts)`.  `run` abstracts run_cog_predict
as a function of the attempt index and the current predict command (subprocess
behaviour is external), `classify` abstracts the per-attempt classifier responses
fed to diagnose_error, and the repair collaborators are those of repair_step.
`fuel` is the number of remaining iterations (attempts - attempt); exhausting the
range falls through and returns normally (exit status 0, reachable only when
attempts = 0).  The second component counts prediction-command invocations, one
per Running transition. -/
def loop_go (run : Nat → String → Bool × String) (classify : Nat → Nat → String)
    (fixP : String → String → String) (fixY : String → String → String → String)
    (genCmd mkFiles : String → String) (attempts : Nat) :
    LoopState → Nat → Nat → LoopOutcome × Nat
  | _, _, 0 => (.exit0, 0)
  | st, attempt, fuel + 1 =>
    if (run attempt st.predict_command).1 then (.exit0, 1)
    else if attempt = attempts - 1 then (.exit1, 1)
    else
      let error := parse_cog_predict_error (run attempt st.predict_command).2
      match diagnose_error (classify attempt) 0 with
      | .error _ => (.fatal, 1)
      | .ok src =>
        let st' := repair_step fixP fixY genCmd mkFiles src error st
        let r := loop_go run classify fixP fixY genCmd mkFiles attempts st' (attempt + 1) fuel
        (r.1, r.2 + 1)

/-- The outer repair loop, started at attempt 0 with `attempts` iterations
remaining (src/autocog/autocog.py line 644). -/
def autocog_loop (run : Nat → String → Bool × String) (classify : Nat → Nat → String)
    (fixP : String → String → String) (fixY : String → String → String → String)
    (genCmd mkFiles : String → String) (attempts : Nat) (st : LoopState) :
    LoopOutcome × Nat :=
  loop_go run classify fixP fixY genCmd mkFiles attempts st 0 attempts

/-! ## Project initialization dispatch (src/autocog/autocog.py lines 526-539 and
609-643) -/
/-- The repository state the dispatch consults: presence/contents of the two
artifact files, and whether the persisted per-repository state (the .autocog
cache, which order_paths uses as its session store) is present. -/
structure RepoFS where
  cog_yaml : Option String
  predict_py : Option String
  cache_present : Bool
deriving DecidableEq

/-- is_initialized (lines 526-529): both artifact files exist. -/
def is_initialized (fs : RepoFS) : Bool :=
  fs.cog_yaml.isSome && fs.predict_py.isSome

/-- initialize_project (lines 532-539): remove both artifact files if present and
purge the cache. -/
def initialize_project (_fs : RepoFS) : RepoFS :=
  { cog_yaml := none, predict_py := none, cache_present := false }

/-- Python truthiness of the optional --tell flag (None and "" are falsy). -/
def pyTruthy (t : Option String) : Bool :=
  match t with
  | none => false
  | some s => s ≠ ""

/-- How the artifact pair was obtained by the dispatch. -/
inductive InitOutcome
  | useExisting (cog_yaml predict_py : String)
  | generated (tellUsed : Bool) (cog_yaml predict_py : String)
deriving DecidableEq

/-- The artifact-acquisition dispatch of autocog (lines 617-639).  `gen` abstracts
order_paths + generate_files + write_files as a function of the (possibly
modified) tell argument, returning the generated (cog.yaml, predict.py) pair.
The returned flag records whether generate_files was invoked.  Note the source
consults only the two artifact files: the persisted cache/session state plays no
part in the branch. -/
def autocog_init (fs : RepoFS) (init_flag : Bool) (tell : Option String)
    (gen : Option String → String × String) : InitOutcome × Bool :=
  let fs := if init_flag then initialize_project fs else fs
  if is_initialized fs && !(pyTruthy tell) then
    (.useExisting (fs.cog_yaml.getD "") (fs.predict_py.getD ""), false)
  else if pyTruthy tell then
    (.generated true (gen tell).1 (gen tell).2, true)
  else
    (.generated false (gen none).1 (gen none).2, true)

/-! ## Marker extraction: file_from_gpt_response (src/autocog/autocog.py lines
318-326)

The source compiles the regex
`(?<=-- FILE_START: {filename})(?:\n<fence>[a-z]*\n)?(.*?)(?:\n<fence>\n)?(?=-- FILE_END: {filename})`
with MULTILINE and DOTALL (where <fence> is three backticks) and takes the first
match of `pattern.search`.  The filename is interpolated into the regex verbatim,
so a dot in the filename (as in cog.yaml and predict.py) is a metacharacter that
matches any character; this embedding implements the backtracking search
specialised to this pattern, with the dot-wildcard semantics. -/
/-- One pattern character against one text character: a dot matches anything. -/
def patCharMatch (p c : Char) : Bool := p = '.' || p = c

/-- The pattern matches a prefix of the text (dot-wildcard on pattern side). -/
def patMatchesPrefix : PyStr → PyStr → Bool
  | [], _ => true
  | _ :: _, [] => false
  | p :: ps, c :: cs => patCharMatch p c && patMatchesPrefix ps cs

/-- Literal (character-equality) prefix test. -/
def litPrefix : PyStr → PyStr → Bool
  | [], _ => true
  | _ :: _, [] => false
  | a :: as, b :: bs => a = b && litPrefix as bs

/-- file_start (src/autocog/autocog.py line 20). -/
def file_start_marker (filename : PyStr) : PyStr := ("-- FILE_START: ").data ++ filename

/-- file_end (src/autocog/autocog.py line 24). -/
def file_end_marker (filename : PyStr) : PyStr := ("-- FILE_END: ").data ++ filename

/-- The character class `[a-z]` of the opening-fence pattern. -/
def isLowerAlpha (c : Char) : Bool := 'a' ≤ c && c ≤ 'z'

/-- The four-character head of the opening-fence pattern: newline and three
backticks. -/
def OPEN_FENCE4 : PyStr := ("\n```").data

/-- The closing-fence pattern text: newline, three backticks, newline. -/
def CLOSE_FENCE : PyStr := ("\n```\n").data

/-- The optional opening-fence group `(?:\n<fence>[a-z]*\n)?`: deterministic, since
the greedy `[a-z]*` run cannot end before a non-letter and must be followed by a
newline.  Returns the rest of the text after the consumed fence, or none. -/
def matchOpenFence (s : PyStr) : Option PyStr :=
  if litPrefix OPEN_FENCE4 s then
    match (s.drop 4).dropWhile isLowerAlpha with
    | c :: tail => if c = '\n' then some tail else none
    | [] => none
  else none

/-- The lazy middle `(.*?)` with the trailing optional close-fence group and the
end-marker lookahead: at each length, first try to consume a close fence and see
the end marker, then try the lookahead directly, then extend the middle by one
character.  `acc` holds the reversed middle consumed so far. -/
def tryMiddle (endPat : PyStr) (acc s : PyStr) : Option PyStr :=
  if litPrefix CLOSE_FENCE s && patMatchesPrefix endPat (s.drop 5) then
    some acc.reverse
  else if patMatchesPrefix endPat s then some acc.reverse
  else
    match s with
    | [] => none
    | c :: s' => tryMiddle endPat (c :: acc) s'

/-- The part of the pattern after the lookbehind, applied at one candidate
position: the opening-fence branch is explored first and in full; if it yields no
match the empty alternative of the optional group is taken. -/
def matchRest (endPat : PyStr) (s : PyStr) : Option PyStr :=
  match matchOpenFence s with
  | some s' =>
    match tryMiddle endPat [] s' with
    | some r => some r
    | none => tryMiddle endPat [] s
  | none => tryMiddle endPat [] s

/-- `pattern.search`: try every position left to right; a position is viable when
the lookbehind holds, i.e. the text just before it matches the start pattern, so
the scan looks for start-pattern occurrences and takes the first one whose
continuation matches. -/
def reSearch (startPat endPat : PyStr) : PyStr → Option PyStr
  | [] => none
  | c :: rest =>
    if patMatchesPrefix startPat (c :: rest) then
      match matchRest endPat ((c :: rest).drop startPat.length) with
      | some r => some r
      | none => reSearch startPat endPat rest
    else reSearch startPat endPat rest

/-- file_from_gpt_response: run the search and strip the captured group; returns
None when the pattern does not match. -/
def file_from_gpt_response (content filename : PyStr) : Option PyStr :=
  match reSearch (file_start_marker filename) (file_end_marker filename) content with
  | none => none
  | some captured => some (pyStrip captured)

/-- Specification-side view of what the regex does to the text between the
markers: remove an opening fence immediately after the start marker, if present. -/
def dropOpenFence (mid : PyStr) : PyStr :=
  match matchOpenFence mid with
  | some rest => rest
  | none => mid

/-- Specification-side view: remove a closing fence immediately before the end
marker, if present. -/
def dropCloseFence (m : PyStr) : PyStr :=
  if CLOSE_FENCE <:+ m then m.take (m.length - 5) else m

/-- Both fence removals, open side first, as the backtracking order implies. -/
def stripFences (mid : PyStr) : PyStr := dropCloseFence (dropOpenFence mid)

/-! ## ArtifactGenerator: generate_files (src/autocog/autocog.py lines 253-288) -/
/-- The per-attempt prompt truncation budgets (line 254). -/
def MAX_LENGTHS : List Nat := [25000, 20000, 15000, 10000]

/-- Abnormal terminations of generate_files: `indexError` models the IndexError
from `max_lengths[attempt]` once attempt reaches the list length, `valueError`
models ValueError("Failed to generate a predict.py file"). -/
inductive GenFailure
  | indexError
  | valueError
deriving DecidableEq

/-- file_end as a plain string, for the containment check at line 274. -/
def file_end_str (filename : String) : String := "-- FILE_END: " ++ filename

/-- generate_files: the generation service is abstracted as `responses`, the reply
text per attempt (the MaxTokensExceeded retry path, which only shrinks the prompt,
is folded into the oracle).  Two source behaviours are preserved faithfully: the
retry guard checks only for the two END markers, and the recursive retry call's
result is discarded (there is no `return` before the recursive call at line 281),
so after a successful retry the function still parses the original malformed
response.  Extraction yields `none` for a missing marker pair (Python None). -/
def generate_files (responses : Nat → String) (attempt : Nat) :
    Except GenFailure (Option PyStr × Option PyStr) :=
  if _h : MAX_LENGTHS.length ≤ attempt then .error .indexError
  else
    let content := responses attempt
    if ¬ (pyContains content (file_end_str "cog.yaml") = true)
        ∨ ¬ (pyContains content (file_end_str "predict.py") = true) then
      if attempt = MAX_LENGTHS.length then .error .valueError
      else
        match generate_files responses (attempt + 1) with
        | .error e => .error e
        | .ok _ =>
          .ok (file_from_gpt_response content.data (("cog.yaml").data),
            file_from_gpt_response content.data (("predict.py").data))
    else
      .ok (file_from_gpt_response content.data (("cog.yaml").data),
        file_from_gpt_response content.data (("predict.py").data))
termination_by MAX_LENGTHS.length - attempt
decreasing_by
  have h4 : MAX_LENGTHS.length = 4 := rfl
  omega

/-- A first response with no markers at all, followed by a fully well-formed
response on the retry. -/
def malformedThenGood : Nat → String := fun n =>
  if n = 0 then "no markers here"
  else "-- FILE_START: cog.yaml\nbuild: x\n-- FILE_END: cog.yaml\n-- FILE_START: predict.py\ncode\n-- FILE_END: predict.py"

/-! ## SessionStore: AI.save_chat_history and AI.load_chat_history
(src/autocog/ai.py lines 125-163) -/
/-- One conversation turn. -/
structure Message where
  role : PyStr
  content : PyStr
deriving DecidableEq

/-- Python str.upper() (ASCII). -/
def pyUpper (s : PyStr) : PyStr := s.map Char.toUpper

/-- Python str.lower() (ASCII). -/
def pyLower (s : PyStr) : PyStr := s.map Char.toLower

/-- Split at newline characters.  This models `f.readlines()` followed by the
per-line `strip()`: readlines keeps the terminators, which the strip removes, so
the stripped line sequence is the same; a trailing newline contributes a final
empty piece, which the loader's blank-line test skips. -/
def splitNL : PyStr → List PyStr
  | [] => [[]]
  | c :: rest =>
    if c = '\n' then [] :: splitNL rest
    else
      match splitNL rest with
      | [] => [[c]]
      | l :: ls => (c :: l) :: ls

/-- Python "\n".join. -/
def joinNL : List PyStr → PyStr
  | [] => []
  | l :: ls =>
    match ls with
    | [] => l
    | _ :: _ => l ++ '\n' :: joinNL ls

/-- save_chat_history (lines 125-131): the fixed system section first, then one
section per turn with the upper-cased role. -/
def save_chat_history (system_prompt : PyStr) (history : List Message) : PyStr :=
  ("## SYSTEM:\n\n").data ++ system_prompt ++ ("\n\n").data
    ++ (history.map (fun m =>
        ("## ").data ++ pyUpper m.role ++ (":\n\n").data
          ++ m.content ++ ("\n\n").data)).flatten

/-- The loader's traversal state: history and system prompt built so far, the
current section's role (None before the first header) and its accumulated
stripped non-blank lines. -/
structure LoadState where
  history : List Message
  system_prompt : PyStr
  current_role : Option PyStr
  current_content : List PyStr
deriving DecidableEq

/-- `line.startswith("## ") and line.endswith(":")`. -/
def headerLike (l : PyStr) : Bool :=
  litPrefix (("## ").data) l && litPrefix ((":").data) l.reverse

/-- The body of `if current_role and current_content:` (lines 144-152 and
158-163): flush the pending section.  Python truthiness makes an empty role or
empty content skip the flush entirely (in particular current_content is then NOT
reset, as in the source). -/
def flushSection (st : LoadState) : LoadState :=
  match st.current_role with
  | none => st
  | some r =>
    if r = [] ∨ st.current_content = [] then st
    else
      let content := pyStrip (joinNL st.current_content)
      if r = ("SYSTEM").data then
        { st with system_prompt := content, current_content := [] }
      else
        { st with history := st.history ++ [⟨pyLower r, content⟩],
                  current_content := [] }

/-- One iteration of the line loop (lines 141-155): strip the line; a header line
flushes the pending section and starts a new one with role `line[3:-1]`; a
non-blank line is accumulated; a blank line is skipped. -/
def processLine (st : LoadState) (rawline : PyStr) : LoadState :=
  let line := pyStrip rawline
  if headerLike line then
    let st2 := flushSection st
    { st2 with current_role := some ((line.drop 3).dropLast) }
  else if line ≠ [] then
    { st with current_content := st.current_content ++ [line] }
  else st

/-- load_chat_history (lines 133-163): fold the line loop over the transcript and
flush the last section; returns the resulting system prompt and history.  `sp0`
is the AI object's system prompt before the load (kept when the transcript has no
SYSTEM section).  The source's final flush does not reset current_content, but the
traversal state is discarded here, so reusing flushSection is equivalent. -/
def load_chat_history (sp0 text : PyStr) : PyStr × List Message :=
  let st := (splitNL text).foldl processLine ⟨[], sp0, none, []⟩
  let st2 := flushSection st
  (st2.system_prompt, st2.history)

/-- The header line the saver writes for a role. -/
def headerOf (r : PyStr) : PyStr := ("## ").data ++ pyUpper r ++ [':']

/-- A content line survives the loader verbatim: non-empty, already stripped, and
not header-like. -/
def NormLine (l : PyStr) : Prop :=
  l ≠ [] ∧ pyStrip l = l ∧ headerLike l = false

instance (l : PyStr) : Decidable (NormLine l) := by
  unfold NormLine
  infer_instance

/-- A content survives the loader verbatim: every line of it is normalised (this
also rules out empty contents and blank lines inside a content). -/
def NormContent (c : PyStr) : Prop := ∀ l ∈ splitNL c, NormLine l

instance (c : PyStr) : Decidable (NormContent c) := by
  unfold NormContent
  infer_instance

/-- A role survives the saver/loader pair: non-empty, its upper-cased form is one
line and is not SYSTEM (whose section loads into the system prompt instead), and
lower-casing undoes the saver's upper-casing (true of the roles the code uses,
user and assistant). -/
def RoleOk (r : PyStr) : Prop :=
  r ≠ [] ∧ '\n' ∉ pyUpper r ∧ pyUpper r ≠ ("SYSTEM").data ∧ pyLower (pyUpper r) = r

instance (r : PyStr) : Decidable (RoleOk r) := by
  unfold RoleOk
  infer_instance

/-- The loader's state invariant along the saved transcript: a pending role is
never the empty string, and before the first header nothing has accumulated. -/
def CleanState (st : LoadState) : Prop :=
  (st.current_role = none → st.current_content = []) ∧
  (∀ r, st.current_role = some r → r ≠ [])

/-- The line sequence the saver emits for a list of turns (the tail after the
system section): each section is its header, a blank line, the content's lines
and a blank line; the final piece after the last trailing newline is empty. -/
def sectionLines : List Message → List PyStr
  | [] => [[]]
  | m :: t => headerOf m.role :: [] :: (splitNL m.content ++ [] :: sectionLines t)

/-! ### Loader step lemmas -/
/-- The history contribution of flushing the pending section. -/
def flushContrib (st : LoadState) : List Message :=
  match st.current_role with
  | none => []
  | some r =>
    if r = [] ∨ st.current_content = [] then []
    else if r = ("SYSTEM").data then []
    else [⟨pyLower r, pyStrip (joinNL st.current_content)⟩]

/-! ### Concrete fixtures for witnesses -/
/-- A run oracle that always fails with empty stderr. -/
def runAlwaysFail : Nat → String → Bool × String := fun _ _ => (false, "")

/-- A run oracle that always succeeds. -/
def runAlwaysOk : Nat → String → Bool × String := fun _ _ => (true, "")

/-- A classifier oracle that always answers predict.py. -/
def classifyPredictPy : Nat → Nat → String := fun _ _ => ERROR_PREDICT_PY

/-- A classifier oracle that always answers an unrecognized label. -/
def classifyGibberish : Nat → Nat → String := fun _ _ => "gibberish"

/-- Trivial repair collaborators for witnesses. -/
def fixKeepFirst2 : String → String → String := fun a _ => a

/-- Trivial repair collaborator taking three arguments. -/
def fixKeepFirst3 : String → String → String → String := fun a _ _ => a

/-- Identity collaborator for command generation and input-stub rewriting. -/
def keepCmd : String → String := fun a => a

/-- An initial loop state for witnesses. -/
def stateZero : LoopState := ⟨"", "", ""⟩

/-! ## Lemmas and claim theorems -/

/-! ### Lemmas about retry_run -/
theorem retry_run_count_le (f : Nat → Except E A) :
    ∀ fuel attempt, (retry_run f attempt fuel).2 ≤ fuel := by
  intro fuel
  induction fuel with
  | zero => intro attempt; simp [retry_run]
  | succ n ih =>
    intro attempt
    simp only [retry_run]
    cases f attempt with
    | ok a => simp
    | error e =>
      by_cases h : n = 0
      · simp [h]
      · simpa [h] using Nat.succ_le_succ (ih (attempt + 1))

theorem retry_run_first_ok (f : Nat → Except E A) :
    ∀ k fuel attempt a, k < fuel →
      (∀ i, attempt ≤ i → i < attempt + k → ∃ e, f i = .error e) →
      f (attempt + k) = .ok a →
      retry_run f attempt fuel = (some (.ok a), k + 1) := by
  intro k
  induction k with
  | zero =>
    intro fuel attempt a hk _ hok
    obtain ⟨n, rfl⟩ := Nat.exists_eq_add_of_lt hk
    simp only [Nat.add_zero] at hok
    simp [retry_run, hok]
  | succ j ih =>
    intro fuel attempt a hk herr hok
    obtain ⟨n, rfl⟩ := Nat.exists_eq_add_of_lt hk
    obtain ⟨e, he⟩ := herr attempt (Nat.le_refl _) (by omega)
    have hfuel : j + 1 + n ≠ 0 := by omega
    have ih2 := ih (j + 1 + n) (attempt + 1) a (by omega)
      (fun i h1 h2 => herr i (by omega) (by omega))
      (by rw [show attempt + 1 + j = attempt + (j + 1) by omega]; exact hok)
    simp [retry_run, he, hfuel, ih2]

theorem retry_run_all_error (f : Nat → Except E A) (g : Nat → E) :
    ∀ fuel attempt, 1 ≤ fuel →
      (∀ i, attempt ≤ i → i < attempt + fuel → f i = .error (g i)) →
      retry_run f attempt fuel = (some (.error (g (attempt + fuel - 1))), fuel) := by
  intro fuel
  induction fuel with
  | zero => intro attempt h; omega
  | succ n ih =>
    intro attempt _ herr
    have he := herr attempt (Nat.le_refl _) (by omega)
    by_cases hn : n = 0
    · subst hn; simp [retry_run, he]
    · have ih2 := ih (attempt + 1) (by omega) (fun i h1 h2 => herr i (by omega) (by omega))
      have harith : attempt + 1 + n - 1 = attempt + (n + 1) - 1 := by omega
      simp [retry_run, he, hn, ih2, harith]

theorem diagnose_error_recognized (classify : Nat → String) (attempt : Nat)
    (h : classify attempt ∈ RECOGNIZED) :
    diagnose_error classify attempt = .ok (classify attempt) := by
  unfold diagnose_error
  simp [h]

theorem diagnose_error_exhausted (classify : Nat → String) (attempt : Nat)
    (h : classify attempt ∉ RECOGNIZED) (h5 : 5 ≤ attempt) :
    diagnose_error classify attempt = .error () := by
  unfold diagnose_error
  simp [h, h5]

theorem diagnose_error_retry (classify : Nat → String) (attempt : Nat)
    (h : classify attempt ∉ RECOGNIZED) (h5 : attempt < 5) :
    diagnose_error classify attempt = diagnose_error classify (attempt + 1) := by
  conv_lhs => rw [diagnose_error]
  simp [h, Nat.not_le.mpr h5]

/-- A classifier that never returns a recognized label drives diagnose_error to the
ValueError, from every starting attempt. -/
theorem diagnose_error_all_unrecognized (classify : Nat → String)
    (h : ∀ j, classify j ∉ RECOGNIZED) (attempt : Nat) :
    diagnose_error classify attempt = .error () := by
  have key : ∀ k a, 5 - a ≤ k → diagnose_error classify a = .error () := by
    intro k
    induction k with
    | zero =>
      intro a ha
      exact diagnose_error_exhausted classify a (h a) (by omega)
    | succ n ih =>
      intro a _
      by_cases h5 : 5 ≤ a
      · exact diagnose_error_exhausted classify a (h a) h5
      · rw [diagnose_error_retry classify a (h a) (by omega)]
        exact ih (a + 1) (by omega)
  exact key 5 attempt (by omega)

theorem loop_go_count_le (run : Nat → String → Bool × String)
    (classify : Nat → Nat → String) (fixP : String → String → String)
    (fixY : String → String → String → String) (genCmd mkFiles : String → String)
    (attempts : Nat) :
    ∀ fuel st attempt,
      (loop_go run classify fixP fixY genCmd mkFiles attempts st attempt fuel).2 ≤ fuel := by
  intro fuel
  induction fuel with
  | zero => intro st attempt; simp [loop_go]
  | succ n ih =>
    intro st attempt
    simp only [loop_go]
    by_cases h1 : (run attempt st.predict_command).1
    · simp [h1]
    · by_cases h2 : attempt = attempts - 1
      · rw [if_neg h1, if_pos h2]
        exact Nat.succ_le_succ (Nat.zero_le n)
      · cases hd : diagnose_error (classify attempt) 0 with
        | error e => simp [h1, h2, hd]
        | ok src =>
          simp only [h1, h2, hd, if_false, if_neg, Bool.false_eq_true]
          simpa [h1, h2, hd] using Nat.succ_le_succ (ih _ (attempt + 1))

theorem loop_go_all_fail (run : Nat → String → Bool × String)
    (classify : Nat → Nat → String) (fixP : String → String → String)
    (fixY : String → String → String → String) (genCmd mkFiles : String → String)
    (attempts : Nat) (hrun : ∀ i cmd, (run i cmd).1 = false)
    (hcl : ∀ i j, classify i j = ERROR_PREDICT_PY) :
    ∀ fuel st attempt, 1 ≤ fuel → attempt + fuel = attempts →
      loop_go run classify fixP fixY genCmd mkFiles attempts st attempt fuel
        = (.exit1, fuel) := by
  intro fuel
  induction fuel with
  | zero => intro st attempt h; omega
  | succ n ih =>
    intro st attempt _ hsum
    have hdiag : diagnose_error (classify attempt) 0 = .ok ERROR_PREDICT_PY := by
      have := diagnose_error_recognized (classify attempt) 0 (by rw [hcl]; decide)
      rwa [hcl] at this
    by_cases hn : n = 0
    · subst hn
      have hlast : attempt = attempts - 1 := by omega
      simp [loop_go, hrun, hlast]
    · have hlast : attempt ≠ attempts - 1 := by omega
      have ihr := ih (repair_step fixP fixY genCmd mkFiles ERROR_PREDICT_PY
          (parse_cog_predict_error (run attempt st.predict_command).2) st)
        (attempt + 1) (by omega) (by omega)
      simp [loop_go, hrun, hlast, hdiag, ihr]

/-! ## Claim theorems for C1, C3, C10 -/
/-- Claim C1: for every prediction-command run, the (succeeded, captured_output)
result of run_cog_predict satisfies: succeeded is true if and only if the exit code
is zero and the accumulated stderr does not contain the uncaught-exception marker
"Traceback (most recent call last)"; the captured output is the accumulated stderr. -/
theorem run_cog_predict_succeeded_iff (returncode : Int) (lines : List String) :
    ((run_cog_predict returncode lines).1 = true ↔
      returncode = 0 ∧ pyContains (collect_stderr lines) EXCEPTION_MARKER = false) ∧
    (run_cog_predict returncode lines).2 = collect_stderr lines := by
  refine ⟨?_, ?_⟩ <;>
    by_cases h : returncode = 0 <;>
      by_cases h2 : pyContains (collect_stderr lines) EXCEPTION_MARKER <;>
        simp [run_cog_predict, h, h2]

/-- Claim C3: each repair touches only the component matching the diagnosed fault.
On a predictor fault only predict.py is rewritten (from its current text and the
error) while cog.yaml and the command are unchanged; on a descriptor fault only
cog.yaml is rewritten while predict.py and the command are unchanged; on a command
fault the command is re-derived from the current predictor source while both
artifacts are unchanged. -/
theorem repair_step_frame (fixP : String → String → String)
    (fixY : String → String → String → String) (genCmd mkFiles : String → String)
    (error : String) (st : LoopState) :
    ((repair_step fixP fixY genCmd mkFiles ERROR_PREDICT_PY error st).predict_py
        = fixP st.predict_py error ∧
      (repair_step fixP fixY genCmd mkFiles ERROR_PREDICT_PY error st).cog_yaml
        = st.cog_yaml ∧
      (repair_step fixP fixY genCmd mkFiles ERROR_PREDICT_PY error st).predict_command
        = st.predict_command) ∧
    ((repair_step fixP fixY genCmd mkFiles ERROR_COG_YAML error st).cog_yaml
        = fixY st.cog_yaml st.predict_py error ∧
      (repair_step fixP fixY genCmd mkFiles ERROR_COG_YAML error st).predict_py
        = st.predict_py ∧
      (repair_step fixP fixY genCmd mkFiles ERROR_COG_YAML error st).predict_command
        = st.predict_command) ∧
    ((repair_step fixP fixY genCmd mkFiles ERROR_COG_PREDICT error st).predict_command
        = mkFiles (genCmd st.predict_py) ∧
      (repair_step fixP fixY genCmd mkFiles ERROR_COG_PREDICT error st).predict_py
        = st.predict_py ∧
      (repair_step fixP fixY genCmd mkFiles ERROR_COG_PREDICT error st).cog_yaml
        = st.cog_yaml) := by
  refine ⟨⟨?_, ?_, ?_⟩, ⟨?_, ?_, ?_⟩, ⟨?_, ?_, ?_⟩⟩ <;>
    simp [repair_step, ERROR_PREDICT_PY, ERROR_COG_YAML, ERROR_COG_PREDICT]

/-- Claim C10: for every wrapped function f and bound attempts ≥ 1, wrapper_retry
invokes f at most `attempts` times; if the invocations 1..k raise and invocation
k + 1 returns normally (k + 1 ≤ attempts), the wrapper returns that result after
exactly k + 1 invocations; and if all `attempts` invocations raise, the wrapper
re-raises the exception of the last invocation after exactly `attempts`
invocations. -/
theorem wrapper_retry_spec (E A : Type) (f : Nat → Except E A) (g : Nat → E)
    (attempts : Nat) (h1 : 1 ≤ attempts) :
    (wrapper_retry f attempts).2 ≤ attempts ∧
    (∀ k a, k < attempts →
      (∀ i, 1 ≤ i → i ≤ k → ∃ e, f i = .error e) →
      f (k + 1) = .ok a →
      wrapper_retry f attempts = (some (.ok a), k + 1)) ∧
    ((∀ i, 1 ≤ i → i ≤ attempts → f i = .error (g i)) →
      wrapper_retry f attempts = (some (.error (g attempts)), attempts)) := by
  refine ⟨retry_run_count_le f attempts 1, ?_, ?_⟩
  · intro k a hk herr hok
    exact retry_run_first_ok f k attempts 1 a hk
      (fun i hi1 hi2 => herr i hi1 (by omega))
      (by rw [Nat.add_comm 1 k]; exact hok)
  · intro herr
    have := retry_run_all_error f g attempts 1 h1
      (fun i hi1 hi2 => herr i hi1 (by omega))
    simpa [wrapper_retry, Nat.add_comm 1 attempts] using this

/-- Claim C2: for every configured attempt count attempts ≥ 1, the outer loop
invokes the prediction command at most `attempts` times; if the first invocation
succeeds the loop exits with status 0 after exactly one invocation; and if every
invocation fails (repairs proceeding normally, here with the classifier labelling
every failure predict.py) the process terminates via sys.exit(1) after exactly
`attempts` invocations. -/
theorem autocog_loop_attempt_bound (run : Nat → String → Bool × String)
    (classify : Nat → Nat → String) (fixP : String → String → String)
    (fixY : String → String → String → String) (genCmd mkFiles : String → String)
    (attempts : Nat) (st : LoopState) (h1 : 1 ≤ attempts) :
    (autocog_loop run classify fixP fixY genCmd mkFiles attempts st).2 ≤ attempts ∧
    ((run 0 st.predict_command).1 = true →
      autocog_loop run classify fixP fixY genCmd mkFiles attempts st = (.exit0, 1)) ∧
    ((∀ i cmd, (run i cmd).1 = false) → (∀ i j, classify i j = ERROR_PREDICT_PY) →
      autocog_loop run classify fixP fixY genCmd mkFiles attempts st
        = (.exit1, attempts)) := by
  refine ⟨loop_go_count_le run classify fixP fixY genCmd mkFiles attempts attempts st 0,
    ?_, ?_⟩
  · intro hok
    obtain ⟨n, rfl⟩ : ∃ n, attempts = n + 1 := ⟨attempts - 1, by omega⟩
    simp [autocog_loop, loop_go, hok]
  · intro hrun hcl
    exact loop_go_all_fail run classify fixP fixY genCmd mkFiles attempts hrun hcl
      attempts st 0 h1 (by omega)

/-- Claim C7: a classifier that returns an unrecognized label on every attempt makes
diagnose_error exhaust its bound and raise (no default fault kind is substituted),
and the exception terminates the outer loop fatally after the failed run — the
`fatal` outcome models the uncaught ValueError, which gives the process a non-zero
exit status. -/
theorem classify_unrecognized_fatal (run : Nat → String → Bool × String)
    (classify : Nat → Nat → String) (fixP : String → String → String)
    (fixY : String → String → String → String) (genCmd mkFiles : String → String)
    (attempts : Nat) (st : LoopState)
    (hcl : ∀ i j, classify i j ∉ RECOGNIZED)
    (hrun : (run 0 st.predict_command).1 = false)
    (h2 : 2 ≤ attempts) :
    diagnose_error (classify 0) 0 = .error () ∧
    autocog_loop run classify fixP fixY genCmd mkFiles attempts st = (.fatal, 1) := by
  have hdiag := diagnose_error_all_unrecognized (classify 0) (hcl 0) 0
  refine ⟨hdiag, ?_⟩
  obtain ⟨n, rfl⟩ : ∃ n, attempts = n + 2 := ⟨attempts - 2, by omega⟩
  have hlast : (0 : Nat) ≠ n + 2 - 1 := by omega
  simp [autocog_loop, loop_go, hrun, hlast, hdiag]

/-- Claim C9: when both artifact files exist and neither the re-initialize flag nor
a truthy --tell instruction is given, the dispatch does not invoke initial artifact
generation and uses the files read from disk as-is. -/
theorem autocog_init_resume (fs : RepoFS) (tell : Option String)
    (gen : Option String → String × String) (y p : String)
    (hy : fs.cog_yaml = some y) (hp : fs.predict_py = some p)
    (ht : pyTruthy tell = false) :
    autocog_init fs false tell gen = (.useExisting y p, false) := by
  simp [autocog_init, is_initialized, hy, hp, ht]

/-- Witness for C9 with concrete file contents. -/
theorem autocog_init_resume_witness :
    autocog_init ⟨some "build:", some "import cog", true⟩ false none
      (fun _ => ("gy", "gp")) = (.useExisting "build:" "import cog", false) :=
  autocog_init_resume ⟨some "build:", some "import cog", true⟩ none
    (fun _ => ("gy", "gp")) "build:" "import cog" rfl rfl rfl

/-- Counterexample to C8 as stated: with the persisted session/cache present but
predict.py missing, the dispatch raises nothing (its codomain has no error case in
the source) and proceeds straight to initial artifact generation — the second
component `true` records that generate_files is invoked. -/
theorem autocog_init_no_fatal_on_missing_artifact :
    autocog_init ⟨some "build:", none, true⟩ false none (fun _ => ("gy", "gp"))
      = (.generated false "gy" "gp", true) := by
  decide

/-- Claim C8 amended: if an artifact file is missing (the project is not
initialized) and no truthy --tell is given, the loop does not raise an
inconsistent-project-state error; it treats the project as uninitialized and
re-invokes initial artifact generation, rewriting both artifacts — regardless of
whether the persisted session/cache is present. -/
theorem autocog_init_regenerates_on_missing_artifact (fs : RepoFS) (init_flag : Bool)
    (tell : Option String) (gen : Option String → String × String)
    (hinit : is_initialized fs = false) (ht : pyTruthy tell = false) :
    autocog_init fs init_flag tell gen
      = (.generated false (gen none).1 (gen none).2, true) := by
  cases init_flag with
  | true => simp [autocog_init, initialize_project, is_initialized, ht]
  | false => simp [autocog_init, hinit, ht]

/-- Witness for the amended C8: session/cache present, predict.py deleted. -/
theorem autocog_init_regenerates_witness :
    autocog_init ⟨some "build:", none, true⟩ true none (fun _ => ("gy", "gp"))
      = (.generated false "gy" "gp", true) :=
  autocog_init_regenerates_on_missing_artifact ⟨some "build:", none, true⟩ true none
    (fun _ => ("gy", "gp")) rfl rfl

/-! ### Lemmas about the pattern matcher -/
theorem patMatchesPrefix_self_append (p x : PyStr) :
    patMatchesPrefix p (p ++ x) = true := by
  induction p with
  | nil => simp [patMatchesPrefix]
  | cons c cs ih => simp [patMatchesPrefix, patCharMatch, ih]

theorem litPrefix_iff_isPrefix (p s : PyStr) : litPrefix p s = true ↔ p <+: s := by
  induction p generalizing s with
  | nil => simp [litPrefix]
  | cons a as ih =>
    cases s with
    | nil => simp [litPrefix]
    | cons b bs => simp [litPrefix, ih, List.cons_prefix_cons]

theorem dropCloseFence_cons (c : Char) (m : PyStr) (h : c :: m ≠ CLOSE_FENCE) :
    dropCloseFence (c :: m) = c :: dropCloseFence m := by
  by_cases hs : CLOSE_FENCE <:+ m
  · have hlen : 5 ≤ m.length := by
      have := hs.length_le
      simpa [CLOSE_FENCE] using this
    have hs2 : CLOSE_FENCE <:+ c :: m := by
      obtain ⟨t, ht⟩ := hs
      exact ⟨c :: t, by simp [ht]⟩
    have harith : (c :: m).length - 5 = (m.length - 5) + 1 := by
      simp only [List.length_cons]; omega
    unfold dropCloseFence
    rw [if_pos hs2, if_pos hs, harith, List.take_succ_cons]
  · have hs2 : ¬ CLOSE_FENCE <:+ c :: m := by
      intro hcon
      obtain ⟨t, ht⟩ := hcon
      cases t with
      | nil => exact h ht.symm
      | cons d ds =>
        apply hs
        refine ⟨ds, ?_⟩
        simpa using congrArg List.tail ht
    simp [dropCloseFence, hs, hs2]

theorem litPrefix_self_append (p x : PyStr) : litPrefix p (p ++ x) = true := by
  induction p with
  | nil => simp [litPrefix]
  | cons c cs ih => simp [litPrefix, ih]

/-- The closing-fence-or-lookahead scan over `mid ++ endPat ++ post`, when the end
pattern matches nowhere in the middle (hmid) nor at the four positions properly
inside a would-be closing fence straddling the boundary (hnear), consumes exactly
the middle minus a trailing closing fence. -/
theorem tryMiddle_spec (endPat post : PyStr) :
    ∀ (mid : PyStr) (acc : PyStr)
      (_hmid : ∀ j, j < mid.length →
        patMatchesPrefix endPat ((mid ++ endPat ++ post).drop j) = false)
      (_hnear : ∀ j, mid.length < j → j < mid.length + 5 →
        patMatchesPrefix endPat ((mid ++ endPat ++ post).drop j) = false),
      tryMiddle endPat acc (mid ++ endPat ++ post)
        = some (acc.reverse ++ dropCloseFence mid) := by
  intro mid
  induction mid with
  | nil =>
    intro acc _ _
    have hnil : dropCloseFence ([] : PyStr) = [] := by decide
    simp only [List.nil_append]
    rw [tryMiddle.eq_def]
    have hself : patMatchesPrefix endPat (endPat ++ post) = true :=
      patMatchesPrefix_self_append endPat post
    by_cases hclose : (litPrefix CLOSE_FENCE (endPat ++ post)
        && patMatchesPrefix endPat ((endPat ++ post).drop 5)) = true
    · rw [if_pos hclose, hnil, List.append_nil]
    · rw [if_neg hclose, if_pos hself, hnil, List.append_nil]
  | cons c m ih =>
    intro acc hmid hnear
    rw [tryMiddle.eq_def]
    by_cases hclose : (litPrefix CLOSE_FENCE ((c :: m) ++ endPat ++ post)
        && patMatchesPrefix endPat (((c :: m) ++ endPat ++ post).drop 5)) = true
    · -- the closing-fence branch fires, so the whole middle is one closing fence
      obtain ⟨hfence, hat5⟩ := Bool.and_eq_true_iff.mp hclose
      have hceq : c :: m = CLOSE_FENCE := by
        rcases Nat.lt_trichotomy 5 (c :: m).length with h5 | h5 | h5
        · rw [hmid 5 h5] at hat5
          exact absurd hat5 Bool.false_ne_true
        · have hpre : CLOSE_FENCE <+: ((c :: m) ++ (endPat ++ post)) :=
            (litPrefix_iff_isPrefix _ _).mp (by simpa [List.append_assoc] using hfence)
          have htake := List.prefix_iff_eq_take.mp hpre
          have hlen5 : CLOSE_FENCE.length = (c :: m).length := by
            rw [← h5]; decide
          rw [hlen5, List.take_left] at htake
          exact htake.symm
        · rw [hnear 5 h5 (by simp only [List.length_cons]; omega)] at hat5
          exact absurd hat5 Bool.false_ne_true
      have hdrop : dropCloseFence (c :: m) = [] := by
        rw [hceq]; decide
      rw [if_pos hclose, hdrop, List.append_nil]
    · -- neither the fence branch nor the bare lookahead succeeds here
      have h0 := hmid 0 (by simp)
      rw [List.drop_zero] at h0
      have hnotend : ¬ patMatchesPrefix endPat ((c :: m) ++ endPat ++ post) = true := by
        intro hcon
        rw [h0] at hcon
        exact Bool.false_ne_true hcon
      have hne : c :: m ≠ CLOSE_FENCE := by
        intro hceq
        apply hclose
        have h1 : litPrefix CLOSE_FENCE ((c :: m) ++ endPat ++ post) = true := by
          rw [hceq, List.append_assoc]; exact litPrefix_self_append _ _
        have h2 : patMatchesPrefix endPat (((c :: m) ++ endPat ++ post).drop 5)
            = true := by
          rw [hceq, List.append_assoc, List.drop_left' (by decide)]
          exact patMatchesPrefix_self_append _ _
        rw [h1, h2]
        rfl
      have hmid2 : ∀ j, j < m.length →
          patMatchesPrefix endPat ((m ++ endPat ++ post).drop j) = false := by
        intro j hj
        have := hmid (j + 1) (by simpa using Nat.succ_lt_succ hj)
        simpa using this
      have hnear2 : ∀ j, m.length < j → j < m.length + 5 →
          patMatchesPrefix endPat ((m ++ endPat ++ post).drop j) = false := by
        intro j hj1 hj2
        have := hnear (j + 1) (by simpa using Nat.succ_lt_succ hj1)
          (by simp only [List.length_cons]; omega)
        simpa using this
      have hrec := ih (c :: acc) hmid2 hnear2
      rw [if_neg hclose, if_neg hnotend]
      show tryMiddle endPat (c :: acc) (m ++ endPat ++ post)
          = some (acc.reverse ++ dropCloseFence (c :: m))
      rw [hrec, dropCloseFence_cons c m hne]
      simp

theorem matchOpenFence_decomp (mid rest : PyStr) (h : matchOpenFence mid = some rest) :
    ∃ pre0, mid = pre0 ++ rest := by
  unfold matchOpenFence at h
  by_cases hp : litPrefix OPEN_FENCE4 mid = true
  · rw [if_pos hp] at h
    cases hdw : (mid.drop 4).dropWhile isLowerAlpha with
    | nil => rw [hdw] at h; cases h
    | cons x tail =>
      rw [hdw] at h
      have h2 : (if x = '\n' then some tail else none) = some rest := h
      by_cases hx : x = '\n'
      · rw [if_pos hx] at h2
        have htail : tail = rest := by injection h2
        refine ⟨mid.take 4 ++ (mid.drop 4).takeWhile isLowerAlpha ++ [x], ?_⟩
        have hsplit : mid.take 4 ++ mid.drop 4 = mid := List.take_append_drop 4 mid
        have hsplit2 : (mid.drop 4).takeWhile isLowerAlpha
            ++ (mid.drop 4).dropWhile isLowerAlpha = mid.drop 4 :=
          List.takeWhile_append_dropWhile isLowerAlpha (mid.drop 4)
        rw [← htail]
        conv_lhs => rw [← hsplit, ← hsplit2, hdw]
        simp [List.append_assoc]
      · rw [if_neg hx] at h2; cases h2
  · rw [if_neg hp] at h; cases h

theorem litPrefix_append_stub (p : PyStr) (x : Char) (hx : x ∉ p) :
    ∀ mid t, litPrefix p mid = false → litPrefix p (mid ++ x :: t) = false := by
  induction p with
  | nil => intro mid t h; simp [litPrefix] at h
  | cons a as ih =>
    intro mid t h
    cases mid with
    | nil =>
      have hax : ¬ a = x := fun hax => hx (by rw [hax]; exact List.mem_cons_self x as)
      simp [litPrefix, hax]
    | cons b bs =>
      rw [List.cons_append]
      by_cases hab : a = b
      · have h2 : litPrefix as bs = false := by
          simpa [litPrefix, hab] using h
        have h3 := ih (fun hmem => hx (List.mem_cons_of_mem a hmem)) bs t h2
        simp [litPrefix, h3]
      · simp [litPrefix, hab]

theorem matchOpenFence_append (mid : PyStr) (t : PyStr) :
    matchOpenFence (mid ++ '-' :: t)
      = (matchOpenFence mid).map (fun r => r ++ '-' :: t) := by
  by_cases hp : litPrefix OPEN_FENCE4 mid = true
  · have hlen : 4 ≤ mid.length := by
      have := ((litPrefix_iff_isPrefix _ _).mp hp).length_le
      simpa [OPEN_FENCE4] using this
    have hp2 : litPrefix OPEN_FENCE4 (mid ++ '-' :: t) = true :=
      (litPrefix_iff_isPrefix _ _).mpr
        (((litPrefix_iff_isPrefix _ _).mp hp).trans (List.prefix_append mid _))
    have hdropeq : (mid ++ '-' :: t).drop 4 = mid.drop 4 ++ '-' :: t := by
      rw [List.drop_append_of_le_length hlen]
    unfold matchOpenFence
    rw [if_pos hp, if_pos hp2, hdropeq, List.dropWhile_append]
    cases hdw : (mid.drop 4).dropWhile isLowerAlpha with
    | nil =>
      rw [if_pos (by simp)]
      rw [show List.dropWhile isLowerAlpha ('-' :: t) = '-' :: t from by
        rw [List.dropWhile_cons, if_neg (by decide)]]
      show (if ('-' : Char) = '\n' then some t else none)
          = Option.map (fun r => r ++ '-' :: t) none
      rw [if_neg (by decide)]
      rfl
    | cons c tl =>
      rw [if_neg (show ¬ ((c :: tl).isEmpty = true) by simp)]
      rw [List.cons_append]
      show (if c = '\n' then some (tl ++ '-' :: t) else none)
          = Option.map (fun r => r ++ '-' :: t) (if c = '\n' then some tl else none)
      by_cases hc : c = '\n'
      · rw [if_pos hc, if_pos hc]; rfl
      · rw [if_neg hc, if_neg hc]; rfl
  · have hpf : litPrefix OPEN_FENCE4 mid = false := Bool.eq_false_iff.mpr hp
    have hp2f := litPrefix_append_stub OPEN_FENCE4 '-' (by decide) mid t hpf
    have hp2 : ¬ litPrefix OPEN_FENCE4 (mid ++ '-' :: t) = true := by
      intro hcon; rw [hp2f] at hcon; exact Bool.false_ne_true hcon
    unfold matchOpenFence
    rw [if_neg hp, if_neg hp2]
    rfl

theorem reSearch_skip (startPat endPat : PyStr) :
    ∀ pre suffix,
      (∀ i, i < pre.length →
        patMatchesPrefix startPat ((pre ++ suffix).drop i) = false) →
      reSearch startPat endPat (pre ++ suffix) = reSearch startPat endPat suffix := by
  intro pre
  induction pre with
  | nil => intro suffix _; rw [List.nil_append]
  | cons c p ih =>
    intro suffix hpre
    have h0 := hpre 0 (by simp)
    rw [List.drop_zero] at h0
    have h1 : patMatchesPrefix startPat (c :: (p ++ suffix)) = false := h0
    have hnot : ¬ patMatchesPrefix startPat (c :: (p ++ suffix)) = true := by
      intro hcon; rw [h1] at hcon; exact Bool.false_ne_true hcon
    rw [show (c :: p) ++ suffix = c :: (p ++ suffix) from rfl]
    simp only [reSearch]
    rw [if_neg hnot]
    exact ih suffix (fun i hi => by
      have := hpre (i + 1) (by simpa using Nat.succ_lt_succ hi)
      simpa using this)

/-- The continuation after the lookbehind: on `mid ++ endPat ++ post` with the end
pattern occurring nowhere unexpected, the match consumes an opening fence at the
start of the middle (if literally present) and a closing fence at its end (if
present), capturing the rest of the middle. -/
theorem matchRest_spec (endPat post mid : PyStr) (tend : PyStr)
    (hend : endPat = '-' :: tend)
    (hmid : ∀ j, j < mid.length →
      patMatchesPrefix endPat ((mid ++ endPat ++ post).drop j) = false)
    (hnear : ∀ j, mid.length < j → j < mid.length + 5 →
      patMatchesPrefix endPat ((mid ++ endPat ++ post).drop j) = false) :
    matchRest endPat (mid ++ endPat ++ post) = some (stripFences mid) := by
  have hassoc : mid ++ endPat ++ post = mid ++ ('-' :: (tend ++ post)) := by
    rw [List.append_assoc, hend]; rfl
  have hof : matchOpenFence (mid ++ endPat ++ post)
      = (matchOpenFence mid).map (fun r => r ++ '-' :: (tend ++ post)) := by
    rw [hassoc]; exact matchOpenFence_append mid (tend ++ post)
  unfold matchRest
  cases hmo : matchOpenFence mid with
  | none =>
    rw [hof, hmo]
    have := tryMiddle_spec endPat post mid [] hmid hnear
    rw [this]
    simp [stripFences, dropOpenFence, hmo]
  | some rest =>
    rw [hof, hmo]
    obtain ⟨pre0, hsplit⟩ := matchOpenFence_decomp mid rest hmo
    have hlenmid : mid.length = pre0.length + rest.length := by
      rw [hsplit, List.length_append]
    have hdropfrom : ∀ j, (rest ++ endPat ++ post).drop j
        = (mid ++ endPat ++ post).drop (pre0.length + j) := by
      intro j
      rw [hsplit]
      rw [show pre0 ++ rest ++ endPat ++ post = pre0 ++ (rest ++ endPat ++ post) from by
        simp [List.append_assoc]]
      rw [← List.drop_drop, List.drop_left]
    have hmid2 : ∀ j, j < rest.length →
        patMatchesPrefix endPat ((rest ++ endPat ++ post).drop j) = false := by
      intro j hj
      rw [hdropfrom j]
      exact hmid (pre0.length + j) (by omega)
    have hnear2 : ∀ j, rest.length < j → j < rest.length + 5 →
        patMatchesPrefix endPat ((rest ++ endPat ++ post).drop j) = false := by
      intro j hj1 hj2
      rw [hdropfrom j]
      exact hnear (pre0.length + j) (by omega) (by omega)
    have htm := tryMiddle_spec endPat post rest [] hmid2 hnear2
    have hrplus : rest ++ '-' :: (tend ++ post) = rest ++ endPat ++ post := by
      rw [List.append_assoc, hend]; rfl
    rw [show ((some rest).map (fun r => r ++ '-' :: (tend ++ post)))
        = some (rest ++ '-' :: (tend ++ post)) from rfl]
    rw [hrplus]
    show (match tryMiddle endPat [] (rest ++ endPat ++ post) with
        | some r => some r
        | none => tryMiddle endPat [] (mid ++ endPat ++ post))
      = some (stripFences mid)
    rw [htm]
    simp [stripFences, dropOpenFence, hmo]

theorem reSearch_head (startPat endPat rest2 r : PyStr) (c : Char) (tS : PyStr)
    (hS : startPat = c :: tS) (hmr : matchRest endPat rest2 = some r) :
    reSearch startPat endPat (startPat ++ rest2) = some r := by
  subst hS
  rw [show (c :: tS) ++ rest2 = c :: (tS ++ rest2) from rfl]
  simp only [reSearch]
  rw [if_pos (show patMatchesPrefix (c :: tS) (c :: (tS ++ rest2)) = true from
    patMatchesPrefix_self_append (c :: tS) rest2)]
  rw [show (c :: (tS ++ rest2)).drop (c :: tS).length = rest2 from by
    rw [show c :: (tS ++ rest2) = (c :: tS) ++ rest2 from rfl, List.drop_left]]
  rw [hmr]

/-- Claim C5 amended: for generated text of the shape
`pre ++ start marker ++ mid ++ end marker ++ post` in which the start pattern does
not match anywhere inside `pre` (so the bracketing pair is the one found) and the
end pattern does not match anywhere inside `mid` nor at the four offsets straddling
the boundary of a would-be closing fence, extraction returns exactly the text
between the two markers, trimmed of surrounding whitespace, after removing an
opening fence immediately after the start marker if one is literally present and,
independently, a closing fence immediately before the end marker if one is
present.  (A wrapped fenced block loses both fences; an unpaired fence adjacent to
a marker is also removed, which is where the original claim fails.) -/
theorem file_from_gpt_response_extracts (pre mid post filename : PyStr)
    (hpre : ∀ i, i < pre.length →
      patMatchesPrefix (file_start_marker filename)
        ((pre ++ file_start_marker filename ++ mid
          ++ file_end_marker filename ++ post).drop i) = false)
    (hmid : ∀ j, j < mid.length →
      patMatchesPrefix (file_end_marker filename)
        ((mid ++ file_end_marker filename ++ post).drop j) = false)
    (hnear : ∀ j, mid.length < j → j < mid.length + 5 →
      patMatchesPrefix (file_end_marker filename)
        ((mid ++ file_end_marker filename ++ post).drop j) = false) :
    file_from_gpt_response
        (pre ++ file_start_marker filename ++ mid ++ file_end_marker filename ++ post)
        filename
      = some (pyStrip (stripFences mid)) := by
  have hmr := matchRest_spec (file_end_marker filename) post mid
    (("- FILE_END: ").data ++ filename) rfl hmid hnear
  have hassoc : pre ++ file_start_marker filename ++ mid
      ++ file_end_marker filename ++ post
      = pre ++ (file_start_marker filename
          ++ (mid ++ file_end_marker filename ++ post)) := by
    simp [List.append_assoc]
  have hsearch : reSearch (file_start_marker filename) (file_end_marker filename)
      (pre ++ file_start_marker filename ++ mid ++ file_end_marker filename ++ post)
      = some (stripFences mid) := by
    rw [hassoc]
    rw [reSearch_skip (file_start_marker filename) (file_end_marker filename) pre
      (file_start_marker filename ++ (mid ++ file_end_marker filename ++ post))
      (fun i hi => by
        have h := hpre i hi
        rw [hassoc] at h
        exact h)]
    exact reSearch_head (file_start_marker filename) (file_end_marker filename)
      (mid ++ file_end_marker filename ++ post) (stripFences mid) '-'
      (("- FILE_START: ").data ++ filename) rfl hmr
  unfold file_from_gpt_response
  rw [hsearch]

/-- Counterexample to C5 as stated: the generated text carries only a closing
fence before the end marker and no opening fence, so there is no wrapping fenced
code block; the text between the markers, trimmed, still ends with the fence line,
yet extraction also strips the unpaired closing fence and returns a strictly
shorter text. -/
theorem file_from_gpt_response_half_fence :
    file_from_gpt_response (("-- FILE_START: f\nhello\n```\n-- FILE_END: f").data)
        (("f").data)
      = some (("hello").data) ∧
    pyStrip (("\nhello\n```\n").data) = ("hello\n```").data ∧
    (("hello").data : PyStr) ≠ ("hello\n```").data := by
  refine ⟨by decide, by decide, by decide⟩

/-- Witness for the amended C5 on a concrete text with surrounding noise. -/
theorem file_from_gpt_response_extracts_witness :
    file_from_gpt_response
        (("Intro\n").data ++ file_start_marker (("f").data) ++ ("\nbody\n").data
          ++ file_end_marker (("f").data) ++ ("!tail").data)
        (("f").data)
      = some (("body").data) :=
  (file_from_gpt_response_extracts (("Intro\n").data) (("\nbody\n").data)
      (("!tail").data) (("f").data)
      (by decide) (by decide)
      (fun j h1 h2 => by
        have h1' : 6 < j := lt_of_le_of_lt (by decide) h1
        have h2' : j < 11 := lt_of_lt_of_le h2 (by decide)
        interval_cases j <;> decide)).trans
    (by decide)

theorem generate_files_good_attempt :
    generate_files malformedThenGood 1
      = .ok (some (("build: x").data), some (("code").data)) := by
  have hy : file_from_gpt_response (malformedThenGood 1).data (("cog.yaml").data)
      = some (("build: x").data) := by decide
  have hp : file_from_gpt_response (malformedThenGood 1).data (("predict.py").data)
      = some (("code").data) := by decide
  rw [generate_files.eq_def]
  rw [dif_neg (by decide)]
  rw [if_neg (by decide)]
  rw [hy, hp]

/-- Claim C6 (code bug): generate_files can return successfully with missing
artifacts.  The first response carries no markers, the retry's response is fully
well-formed, yet the recursive retry call's result is discarded and the function
returns the extraction of the original malformed response: `.ok (none, none)`,
both artifacts absent, contradicting the guarantee that a successful return
always carries both artifacts as fully formed text. -/
theorem generate_files_returns_missing_artifacts :
    generate_files malformedThenGood 0 = .ok (none, none) := by
  have hy0 : file_from_gpt_response (malformedThenGood 0).data (("cog.yaml").data)
      = none := by decide
  have hp0 : file_from_gpt_response (malformedThenGood 0).data (("predict.py").data)
      = none := by decide
  rw [generate_files.eq_def]
  rw [dif_neg (by decide)]
  rw [if_pos (by decide)]
  rw [if_neg (by decide)]
  rw [show (0 : Nat) + 1 = 1 from rfl]
  rw [generate_files_good_attempt]
  show Except.ok
      (file_from_gpt_response (malformedThenGood 0).data (("cog.yaml").data),
        file_from_gpt_response (malformedThenGood 0).data (("predict.py").data))
    = Except.ok (none, none)
  rw [hy0, hp0]

/-! ### Line-splitting and strip lemmas -/
theorem splitNL_ne_nil : ∀ c : PyStr, splitNL c ≠ []
  | [] => by simp [splitNL]
  | a :: r => by
    simp only [splitNL]
    by_cases ha : a = '\n'
    · simp [ha]
    · rw [if_neg ha]
      cases hsr : splitNL r with
      | nil => simp
      | cons l ls => simp

theorem splitNL_append (a b : PyStr) :
    splitNL (a ++ '\n' :: b) = splitNL a ++ splitNL b := by
  induction a with
  | nil => simp [splitNL]
  | cons c a ih =>
    by_cases hc : c = '\n'
    · subst hc
      show splitNL ('\n' :: (a ++ '\n' :: b)) = splitNL ('\n' :: a) ++ splitNL b
      simp only [splitNL, if_pos rfl]
      rw [ih]
      rfl
    · show splitNL (c :: (a ++ '\n' :: b)) = splitNL (c :: a) ++ splitNL b
      simp only [splitNL, if_neg hc]
      rw [ih]
      cases hsa : splitNL a with
      | nil => exact absurd hsa (splitNL_ne_nil a)
      | cons l ls => simp

theorem splitNL_no_newline (a : PyStr) (h : '\n' ∉ a) : splitNL a = [a] := by
  induction a with
  | nil => rfl
  | cons c r ih =>
    have hc : ¬ c = '\n' := fun hh => h (hh ▸ List.mem_cons_self c r)
    simp only [splitNL, if_neg hc]
    rw [ih (fun hm => h (List.mem_cons_of_mem c hm))]

theorem joinNL_splitNL : ∀ c : PyStr, joinNL (splitNL c) = c := by
  intro c
  induction c with
  | nil => rfl
  | cons a r ih =>
    by_cases ha : a = '\n'
    · subst ha
      simp only [splitNL, if_pos rfl]
      cases hsr : splitNL r with
      | nil => exact absurd hsr (splitNL_ne_nil r)
      | cons l ls =>
        rw [hsr] at ih
        show joinNL ([] :: l :: ls) = '\n' :: r
        rw [show joinNL ([] :: l :: ls) = [] ++ '\n' :: joinNL (l :: ls) from rfl]
        rw [ih]
        rfl
    · simp only [splitNL, if_neg ha]
      cases hsr : splitNL r with
      | nil => exact absurd hsr (splitNL_ne_nil r)
      | cons l ls =>
        rw [hsr] at ih
        cases ls with
        | nil =>
          have hlr : l = r := ih
          show joinNL [a :: l] = a :: r
          rw [show joinNL [a :: l] = a :: l from rfl, hlr]
        | cons l2 ls2 =>
          show joinNL ((a :: l) :: l2 :: ls2) = a :: r
          rw [show joinNL ((a :: l) :: l2 :: ls2)
              = (a :: l) ++ '\n' :: joinNL (l2 :: ls2) from rfl]
          rw [show joinNL (l :: l2 :: ls2)
              = l ++ '\n' :: joinNL (l2 :: ls2) from rfl] at ih
          rw [← ih]
          rfl

theorem dropWhile_eq_self_head (p : Char → Bool) (l : PyStr) (h : l.dropWhile p = l) :
    ∀ ch, l.head? = some ch → p ch = false := by
  intro ch hch
  cases l with
  | nil => cases hch
  | cons a r =>
    have ha : a = ch := by
      have : some a = some ch := hch
      injection this
    subst ha
    by_cases hp : p a = true
    · rw [List.dropWhile_cons, if_pos hp] at h
      have hlen := congrArg List.length h
      have hle : (r.dropWhile p).length ≤ r.length := (List.dropWhile_suffix p).length_le
      simp only [List.length_cons] at hlen
      omega
    · exact Bool.eq_false_iff.mpr hp

theorem pyStrip_dropWhile_eq_self (l : PyStr) (h : pyStrip l = l) :
    l.dropWhile pyIsSpace = l := by
  have hlen2 : (pyStrip l).length ≤ (l.dropWhile pyIsSpace).length := by
    have h1 : (pyStrip l).length
        = ((l.dropWhile pyIsSpace).reverse.dropWhile pyIsSpace).length := by
      simp [pyStrip]
    have h2 : ((l.dropWhile pyIsSpace).reverse.dropWhile pyIsSpace).length
        ≤ (l.dropWhile pyIsSpace).reverse.length :=
      (List.dropWhile_suffix _).length_le
    simp only [List.length_reverse] at h2
    omega
  apply (List.dropWhile_suffix pyIsSpace).eq_of_length
  have h3 : (l.dropWhile pyIsSpace).length ≤ l.length :=
    (List.dropWhile_suffix pyIsSpace).length_le
  have h4 := congrArg List.length h
  omega

theorem pyStrip_head (l : PyStr) (h : pyStrip l = l) :
    ∀ ch, l.head? = some ch → pyIsSpace ch = false :=
  dropWhile_eq_self_head pyIsSpace l (pyStrip_dropWhile_eq_self l h)

theorem pyStrip_last (l : PyStr) (h : pyStrip l = l) :
    ∀ ch, l.getLast? = some ch → pyIsSpace ch = false := by
  intro ch hch
  have h1 := pyStrip_dropWhile_eq_self l h
  have h2 : (l.reverse.dropWhile pyIsSpace).reverse = l := by
    have : pyStrip l = (l.reverse.dropWhile pyIsSpace).reverse := by
      unfold pyStrip
      rw [h1]
    rw [← this, h]
  have h3 : l.reverse.dropWhile pyIsSpace = l.reverse := by
    have := congrArg List.reverse h2
    simpa using this
  exact dropWhile_eq_self_head pyIsSpace l.reverse h3 ch
    (by rw [List.head?_reverse]; exact hch)

theorem pyStrip_eq_self (l : PyStr)
    (hh : ∀ ch, l.head? = some ch → pyIsSpace ch = false)
    (hl : ∀ ch, l.getLast? = some ch → pyIsSpace ch = false) :
    pyStrip l = l := by
  have h1 : l.dropWhile pyIsSpace = l := by
    cases l with
    | nil => rfl
    | cons a r =>
      rw [List.dropWhile_cons, if_neg (by simp [hh a rfl])]
  have h2 : l.reverse.dropWhile pyIsSpace = l.reverse := by
    cases hrev : l.reverse with
    | nil => rfl
    | cons a r =>
      have hga : l.getLast? = some a := by
        rw [List.getLast?_eq_head?_reverse, hrev]
        rfl
      rw [List.dropWhile_cons, if_neg (by simp [hl a hga])]
  unfold pyStrip
  rw [h1, h2, List.reverse_reverse]

theorem joinNL_head (lines : List PyStr) (ll : PyStr) (hl : lines.head? = some ll)
    (hll : ll ≠ []) : (joinNL lines).head? = ll.head? := by
  cases lines with
  | nil => cases hl
  | cons l ls =>
    have hleq : l = ll := by
      have : some l = some ll := hl
      injection this
    subst hleq
    cases ls with
    | nil => rfl
    | cons l2 ls2 =>
      show (l ++ '\n' :: joinNL (l2 :: ls2)).head? = l.head?
      rw [List.head?_append]
      cases hx : l.head? with
      | none => exact absurd (List.head?_eq_none_iff.mp hx) hll
      | some x => rfl

theorem joinNL_getLast (lines : List PyStr) (ll : PyStr)
    (hl : lines.getLast? = some ll) (hll : ll ≠ []) :
    (joinNL lines).getLast? = ll.getLast? := by
  induction lines with
  | nil => cases hl
  | cons l ls ih =>
    cases ls with
    | nil =>
      have hleq : l = ll := by simpa using hl
      subst hleq
      rfl
    | cons l2 ls2 =>
      have hl2 : (l2 :: ls2).getLast? = some ll := by
        rw [← List.getLast?_cons_cons]
        exact hl
      have ihr := ih hl2
      show (l ++ '\n' :: joinNL (l2 :: ls2)).getLast? = ll.getLast?
      rw [List.getLast?_append]
      have hmid : ('\n' :: joinNL (l2 :: ls2)).getLast? = ll.getLast? := by
        rw [show ('\n' :: joinNL (l2 :: ls2)) = ['\n'] ++ joinNL (l2 :: ls2) from rfl,
          List.getLast?_append, ihr]
        cases hx : ll.getLast? with
        | none => exact absurd (List.getLast?_eq_none_iff.mp hx) hll
        | some x => rfl
      rw [hmid]
      cases hx : ll.getLast? with
      | none => exact absurd (List.getLast?_eq_none_iff.mp hx) hll
      | some x => rfl

theorem NormContent_strip (c : PyStr) (h : NormContent c) : pyStrip c = c := by
  have hjoin := joinNL_splitNL c
  cases hsl : splitNL c with
  | nil => exact absurd hsl (splitNL_ne_nil c)
  | cons l0 rest =>
    have hl0 : NormLine l0 := h l0 (by rw [hsl]; exact List.mem_cons_self _ _)
    have hlastsome : ∃ ll, (l0 :: rest).getLast? = some ll := by
      cases hx : (l0 :: rest).getLast? with
      | none => exact absurd (List.getLast?_eq_none_iff.mp hx) (by simp)
      | some ll => exact ⟨ll, rfl⟩
    obtain ⟨ll, hll⟩ := hlastsome
    have hnll : NormLine ll :=
      h ll (by rw [hsl]; exact List.mem_of_getLast?_eq_some hll)
    apply pyStrip_eq_self
    · intro ch hch
      have hchead : c.head? = l0.head? := by
        conv_lhs => rw [← hjoin]
        rw [hsl]
        exact joinNL_head (l0 :: rest) l0 rfl hl0.1
      rw [hchead] at hch
      exact pyStrip_head l0 hl0.2.1 ch hch
    · intro ch hch
      have hclast : c.getLast? = ll.getLast? := by
        conv_lhs => rw [← hjoin]
        rw [hsl]
        exact joinNL_getLast (l0 :: rest) ll hll hnll.1
      rw [hclast] at hch
      exact pyStrip_last ll hnll.2.1 ch hch

theorem pyUpper_ne_nil (r : PyStr) (h : r ≠ []) : pyUpper r ≠ [] := by
  cases r with
  | nil => exact absurd rfl h
  | cons a t => simp [pyUpper]

theorem flushSection_history (st : LoadState) :
    (flushSection st).history = st.history ++ flushContrib st := by
  obtain ⟨h0, s0, role0, cc0⟩ := st
  cases role0 with
  | none => simp [flushSection, flushContrib]
  | some r =>
    simp only [flushSection, flushContrib]
    by_cases h1 : r = [] ∨ cc0 = []
    · rw [if_pos h1, if_pos h1]
      simp
    · rw [if_neg h1, if_neg h1]
      by_cases h2 : r = ("SYSTEM").data
      · rw [if_pos h2, if_pos h2]
        simp
      · rw [if_neg h2, if_neg h2]

theorem flushSection_content (st : LoadState) (h : CleanState st) :
    (flushSection st).current_content = [] := by
  obtain ⟨h0, s0, role0, cc0⟩ := st
  cases role0 with
  | none => exact h.1 rfl
  | some r =>
    simp only [flushSection]
    by_cases h1 : r = [] ∨ cc0 = []
    · rw [if_pos h1]
      rcases h1 with h1 | h1
      · exact absurd h1 (h.2 r rfl)
      · exact h1
    · rw [if_neg h1]
      by_cases h2 : r = ("SYSTEM").data
      · rw [if_pos h2]
      · rw [if_neg h2]

theorem processLine_header (st : LoadState) (r : PyStr) :
    processLine st (headerOf r)
      = { flushSection st with current_role := some (pyUpper r) } := by
  have hassoc : headerOf r = ("## ").data ++ (pyUpper r ++ [':']) := by
    unfold headerOf
    rw [List.append_assoc]
  have hlast : (headerOf r).getLast? = some ':' := by
    unfold headerOf
    exact List.getLast?_concat _
  have hstrip : pyStrip (headerOf r) = headerOf r := by
    apply pyStrip_eq_self
    · intro ch hch
      have hh : (headerOf r).head? = some '#' := rfl
      rw [hh] at hch
      have : '#' = ch := by injection hch
      subst this
      decide
    · intro ch hch
      rw [hlast] at hch
      have : ':' = ch := by injection hch
      subst this
      decide
  have hhd : headerLike (headerOf r) = true := by
    unfold headerLike
    have h1 : litPrefix (("## ").data) (headerOf r) = true := by
      rw [hassoc]
      exact litPrefix_self_append _ _
    have h2 : litPrefix ((":").data) (headerOf r).reverse = true := by
      unfold headerOf
      rw [List.reverse_append]
      simp [litPrefix]
    rw [h1, h2]
    rfl
  have hparse : ((headerOf r).drop 3).dropLast = pyUpper r := by
    rw [hassoc, List.drop_left' (by decide)]
    exact List.dropLast_concat
  simp only [processLine]
  rw [hstrip, if_pos hhd, hparse]

theorem processLine_content (st : LoadState) (l : PyStr) (h : NormLine l) :
    processLine st l = { st with current_content := st.current_content ++ [l] } := by
  obtain ⟨hne, hstrip, hhd⟩ := h
  simp only [processLine]
  rw [hstrip]
  rw [if_neg (by rw [hhd]; exact Bool.false_ne_true)]
  rw [if_pos hne]

theorem processLine_blank (st : LoadState) : processLine st [] = st := by
  simp only [processLine]
  rw [show pyStrip [] = [] from rfl]
  rw [if_neg (by decide), if_neg (by simp)]

theorem processLine_nonheader (st : LoadState) (l : PyStr)
    (h : headerLike (pyStrip l) = false) :
    processLine st l = if pyStrip l = [] then st
      else { st with current_content := st.current_content ++ [pyStrip l] } := by
  simp only [processLine]
  rw [if_neg (by rw [h]; exact Bool.false_ne_true)]
  by_cases hz : pyStrip l = []
  · rw [if_neg (show ¬ pyStrip l ≠ [] from fun hcon => hcon hz), if_pos hz]
  · rw [if_pos hz, if_neg hz]

theorem fold_content_lines : ∀ (ls : List PyStr), (∀ l ∈ ls, NormLine l) →
    ∀ st : LoadState,
    ls.foldl processLine st
      = { st with current_content := st.current_content ++ ls } := by
  intro ls
  induction ls with
  | nil => intro _ st; simp
  | cons l ls ih =>
    intro h st
    rw [List.foldl_cons, processLine_content st l (h l (List.mem_cons_self _ _))]
    rw [ih (fun x hx => h x (List.mem_cons_of_mem l hx))]
    simp

theorem fold_nonheader_lines : ∀ (ls : List PyStr),
    (∀ l ∈ ls, headerLike (pyStrip l) = false) → ∀ st : LoadState,
    ∃ extra, ls.foldl processLine st
      = { st with current_content := st.current_content ++ extra } := by
  intro ls
  induction ls with
  | nil => intro _ st; exact ⟨[], by simp⟩
  | cons l ls ih =>
    intro h st
    rw [List.foldl_cons, processLine_nonheader st l (h l (List.mem_cons_self _ _))]
    by_cases hz : pyStrip l = []
    · rw [if_pos hz]
      exact ih (fun x hx => h x (List.mem_cons_of_mem l hx)) st
    · rw [if_neg hz]
      obtain ⟨extra, hex⟩ := ih (fun x hx => h x (List.mem_cons_of_mem l hx))
        { st with current_content := st.current_content ++ [pyStrip l] }
      exact ⟨[pyStrip l] ++ extra, by rw [hex]; simp⟩

theorem fold_sections : ∀ (t : List Message),
    (∀ m ∈ t, RoleOk m.role) → (∀ m ∈ t, NormContent m.content) →
    ∀ st : LoadState, CleanState st →
    (flushSection ((sectionLines t).foldl processLine st)).history
      = st.history ++ flushContrib st ++ t := by
  intro t
  induction t with
  | nil =>
    intro _ _ st _
    show (flushSection ([[]].foldl processLine st)).history = _
    simp only [List.foldl_cons, List.foldl_nil]
    rw [processLine_blank st, flushSection_history st]
    simp
  | cons m t ih =>
    intro hr hc st hclean
    have hrm : RoleOk m.role := hr m (List.mem_cons_self _ _)
    have hcm : NormContent m.content := hc m (List.mem_cons_self _ _)
    show (flushSection ((headerOf m.role :: [] :: (splitNL m.content
        ++ [] :: sectionLines t)).foldl processLine st)).history = _
    rw [List.foldl_cons, processLine_header st m.role, List.foldl_cons,
      processLine_blank, List.foldl_append,
      fold_content_lines (splitNL m.content) hcm, List.foldl_cons, processLine_blank]
    have hcc1 : (flushSection st).current_content = [] := flushSection_content st hclean
    have hclean2 : CleanState
        { { flushSection st with current_role := some (pyUpper m.role) } with
          current_content :=
            { flushSection st with
              current_role := some (pyUpper m.role) }.current_content
              ++ splitNL m.content } := by
      constructor
      · intro hcon
        cases hcon
      · intro r hrr
        have : some (pyUpper m.role) = some r := hrr
        have hru : pyUpper m.role = r := by injection this
        rw [← hru]
        exact pyUpper_ne_nil m.role hrm.1
    rw [ih (fun x hx => hr x (List.mem_cons_of_mem m hx))
      (fun x hx => hc x (List.mem_cons_of_mem m hx)) _ hclean2]
    have hcontrib : flushContrib
        { { flushSection st with current_role := some (pyUpper m.role) } with
          current_content :=
            { flushSection st with
              current_role := some (pyUpper m.role) }.current_content
              ++ splitNL m.content } = [m] := by
      unfold flushContrib
      show (if pyUpper m.role = [] ∨ { flushSection st with
          current_role := some (pyUpper m.role) }.current_content
            ++ splitNL m.content = [] then []
        else if pyUpper m.role = ("SYSTEM").data then []
        else [⟨pyLower (pyUpper m.role),
          pyStrip (joinNL ({ flushSection st with
            current_role := some (pyUpper m.role) }.current_content
              ++ splitNL m.content))⟩]) = [m]
      have hccs : { flushSection st with
          current_role := some (pyUpper m.role) }.current_content
            ++ splitNL m.content = splitNL m.content := by
        show (flushSection st).current_content ++ splitNL m.content = _
        rw [hcc1]
        simp
      rw [hccs]
      rw [if_neg (by
        rintro (hcon | hcon)
        · exact pyUpper_ne_nil m.role hrm.1 hcon
        · exact splitNL_ne_nil m.content hcon)]
      rw [if_neg hrm.2.2.1]
      rw [hrm.2.2.2, joinNL_splitNL, NormContent_strip m.content hcm]
    rw [hcontrib]
    have hhist2 : { { flushSection st with current_role := some (pyUpper m.role) } with
        current_content :=
          { flushSection st with
            current_role := some (pyUpper m.role) }.current_content
            ++ splitNL m.content }.history = st.history ++ flushContrib st := by
      show (flushSection st).history = _
      exact flushSection_history st
    rw [hhist2]
    simp

theorem splitNL_cons_newline (z : PyStr) : splitNL ('\n' :: z) = [] :: splitNL z := by
  simp [splitNL]

theorem newline_not_mem_headerOf (r : PyStr) (h : '\n' ∉ pyUpper r) :
    '\n' ∉ headerOf r := by
  unfold headerOf
  intro hmem
  rcases List.mem_append.mp hmem with hmem | hmem
  · rcases List.mem_append.mp hmem with hmem | hmem
    · exact absurd hmem (by decide)
    · exact h hmem
  · exact absurd hmem (by decide)

theorem flat_lines : ∀ (hist : List Message),
    (∀ m ∈ hist, '\n' ∉ pyUpper m.role) →
    splitNL ((hist.map (fun m =>
        ("## ").data ++ pyUpper m.role ++ (":\n\n").data
          ++ m.content ++ ("\n\n").data)).flatten)
      = sectionLines hist := by
  intro hist
  induction hist with
  | nil => intro _; rfl
  | cons m t ih =>
    intro h
    rw [List.map_cons, List.flatten_cons]
    rw [show ("## ").data ++ pyUpper m.role ++ (":\n\n").data
          ++ m.content ++ ("\n\n").data
          ++ (t.map (fun m =>
            ("## ").data ++ pyUpper m.role ++ (":\n\n").data
              ++ m.content ++ ("\n\n").data)).flatten
        = headerOf m.role ++ '\n' :: ('\n' :: (m.content ++ '\n' :: ('\n' ::
            (t.map (fun m =>
              ("## ").data ++ pyUpper m.role ++ (":\n\n").data
                ++ m.content ++ ("\n\n").data)).flatten))) from by
      unfold headerOf
      rw [show (":\n\n").data = [':', '\n', '\n'] from rfl,
        show ("\n\n").data = ['\n', '\n'] from rfl]
      simp [List.append_assoc]]
    rw [splitNL_append, splitNL_cons_newline, splitNL_append, splitNL_cons_newline]
    rw [splitNL_no_newline (headerOf m.role)
      (newline_not_mem_headerOf m.role (h m (List.mem_cons_self _ _)))]
    rw [ih (fun x hx => h x (List.mem_cons_of_mem m hx))]
    rfl

theorem saved_lines (sp : PyStr) (hist : List Message)
    (hr : ∀ m ∈ hist, '\n' ∉ pyUpper m.role) :
    splitNL (save_chat_history sp hist)
      = ("## SYSTEM:").data :: [] :: (splitNL sp ++ [] :: sectionLines hist) := by
  unfold save_chat_history
  rw [show ("## SYSTEM:\n\n").data ++ sp ++ ("\n\n").data
        ++ (hist.map (fun m =>
            ("## ").data ++ pyUpper m.role ++ (":\n\n").data
              ++ m.content ++ ("\n\n").data)).flatten
      = ("## SYSTEM:").data ++ '\n' :: ('\n' :: (sp ++ '\n' :: ('\n' ::
          (hist.map (fun m =>
            ("## ").data ++ pyUpper m.role ++ (":\n\n").data
              ++ m.content ++ ("\n\n").data)).flatten))) from by
    rw [show ("## SYSTEM:\n\n").data = ("## SYSTEM:").data ++ ['\n', '\n'] from rfl,
      show ("\n\n").data = ['\n', '\n'] from rfl]
    simp [List.append_assoc]]
  rw [splitNL_append, splitNL_cons_newline, splitNL_append, splitNL_cons_newline]
  rw [splitNL_no_newline (("## SYSTEM:").data) (by decide)]
  rw [flat_lines hist hr]
  rfl

theorem cleanState_of_role (st : LoadState) (r : PyStr)
    (hrole : st.current_role = some r) (hne : r ≠ []) : CleanState st := by
  constructor
  · intro hcon
    rw [hcon] at hrole
    cases hrole
  · intro r2 hr2
    rw [hrole] at hr2
    have : r = r2 := by injection hr2
    rw [← this]
    exact hne

theorem flushContrib_system (st : LoadState)
    (hrole : st.current_role = some (("SYSTEM").data)) :
    flushContrib st = [] := by
  unfold flushContrib
  rw [hrole]
  show (if ("SYSTEM").data = [] ∨ st.current_content = [] then []
    else if ("SYSTEM").data = ("SYSTEM").data then []
    else [⟨pyLower (("SYSTEM").data), pyStrip (joinNL st.current_content)⟩]) = []
  by_cases h1 : ("SYSTEM").data = ([] : PyStr) ∨ st.current_content = []
  · rw [if_pos h1]
  · rw [if_neg h1, if_pos rfl]

/-- Claim C4 amended: for every session whose turns have non-empty roles that are
single-line, not SYSTEM when upper-cased, and invariant under the saver's
upper-casing followed by the loader's lower-casing (as user and assistant are),
whose contents are normalised (non-empty, no blank lines, every line free of
leading and trailing whitespace and not header-like), and whose system prompt
contains no header-like line, writing the transcript and reading it back
reproduces exactly the same ordered turn sequence: count, order, roles and
contents are all preserved. -/
theorem save_load_round_trip (sp0 sp : PyStr) (hist : List Message)
    (hsp : ∀ l ∈ splitNL sp, headerLike (pyStrip l) = false)
    (hr : ∀ m ∈ hist, RoleOk m.role)
    (hc : ∀ m ∈ hist, NormContent m.content) :
    (load_chat_history sp0 (save_chat_history sp hist)).2 = hist := by
  show (flushSection ((splitNL (save_chat_history sp hist)).foldl processLine
      ⟨[], sp0, none, []⟩)).history = hist
  rw [saved_lines sp hist (fun m hm => (hr m hm).2.1)]
  rw [List.foldl_cons]
  rw [show ("## SYSTEM:").data = headerOf (("system").data) from by decide]
  rw [processLine_header]
  rw [show ({ flushSection (⟨[], sp0, none, []⟩ : LoadState) with
      current_role := some (pyUpper (("system").data)) } : LoadState)
    = (⟨[], sp0, some (("SYSTEM").data), []⟩ : LoadState) from by
    rw [show flushSection (⟨[], sp0, none, []⟩ : LoadState)
        = (⟨[], sp0, none, []⟩ : LoadState) from rfl]
    rw [show pyUpper (("system").data) = ("SYSTEM").data from by decide]]
  rw [List.foldl_cons, processLine_blank, List.foldl_append]
  obtain ⟨extra, hex⟩ := fold_nonheader_lines (splitNL sp) hsp
    ⟨[], sp0, some (("SYSTEM").data), []⟩
  rw [hex, List.foldl_cons, processLine_blank]
  rw [fold_sections hist hr hc _ (cleanState_of_role _ (("SYSTEM").data) rfl (by decide))]
  rw [flushContrib_system _ rfl]
  simp

/-- Counterexample to C4 as stated: a session with one turn whose content is the
empty string round-trips to an empty history — the empty section accumulates no
content lines and the loader's truthiness test skips the flush, dropping the
turn. -/
theorem save_load_drops_empty_turn :
    (load_chat_history [] (save_chat_history (("s").data)
        [⟨("user").data, []⟩])).2 = [] ∧
    ([] : List Message) ≠ [⟨("user").data, ([] : PyStr)⟩] :=
  ⟨by decide, by decide⟩

/-- Witness for the amended C4 on a concrete two-turn session with a multi-line
content. -/
theorem save_load_round_trip_witness :
    (load_chat_history [] (save_chat_history (("be brief").data)
        [⟨("user").data, ("hi there").data⟩,
          ⟨("assistant").data, ("hello\nworld").data⟩])).2
      = [⟨("user").data, ("hi there").data⟩,
          ⟨("assistant").data, ("hello\nworld").data⟩] :=
  save_load_round_trip [] (("be brief").data)
    [⟨("user").data, ("hi there").data⟩,
      ⟨("assistant").data, ("hello\nworld").data⟩]
    (by decide) (by decide) (by decide)

/-- Witness for C2: with two attempts and a run oracle that always fails while the
classifier always answers predict.py, the loop exits with status 1 after exactly
two invocations. -/
theorem autocog_loop_attempt_bound_witness :
    autocog_loop runAlwaysFail classifyPredictPy fixKeepFirst2 fixKeepFirst3 keepCmd
      keepCmd 2 stateZero = (.exit1, 2) :=
  (autocog_loop_attempt_bound runAlwaysFail classifyPredictPy fixKeepFirst2
      fixKeepFirst3 keepCmd keepCmd 2 stateZero (by decide)).2.2
    (fun _ _ => rfl) (fun _ _ => rfl)

/-- Witness for C7: with an always-unrecognized classifier and a failing first run,
diagnose_error raises and the loop ends fatally after one invocation. -/
theorem classify_unrecognized_fatal_witness :
    diagnose_error (classifyGibberish 0) 0 = .error () ∧
    autocog_loop runAlwaysFail classifyGibberish fixKeepFirst2 fixKeepFirst3 keepCmd
      keepCmd 2 stateZero = (.fatal, 1) :=
  classify_unrecognized_fatal runAlwaysFail classifyGibberish fixKeepFirst2
    fixKeepFirst3 keepCmd keepCmd 2 stateZero
    (fun i j => by show "gibberish" ∉ RECOGNIZED; decide) rfl (by decide)

/-- Witness for C10 at attempts = 2 with a function that raises once then succeeds. -/
theorem wrapper_retry_spec_witness :
    wrapper_retry (fun i => if i = 1 then .error "boom" else .ok 7) 2 = (some (.ok 7), 2) :=
  (wrapper_retry_spec String Nat (fun i => if i = 1 then .error "boom" else .ok 7)
    (fun _ => "boom") 2 (by decide)).2.1 1 7 (by decide)
    (fun i hi1 hi2 => ⟨"boom", by have hi : i = 1 := by omega
                                  simp [hi]⟩)
    rfl

end AutoCog
